import Mathlib

/-!
Shallow embedding of `src/Practica3.py` (class `SANParser` and its driver).

The SAN regular expression built by `SANParser._compile_patterns` contains no
Kleene star, only character classes, literals, concatenation, alternation and
optional groups, so its language is embedded with exact regular-language
combinators over `List Char`.  `re.match` with a pattern of the shape
`^(...)$` matches a string `s` iff the core pattern matches all of `s`, or all
of `s` minus a single trailing newline (Python's `$` also matches just before
a newline that ends the string).
-/

/-- Language of a single character satisfying `p` (a regex character class). -/
def chR (p : Char → Bool) : List Char → Bool
  | [c] => p c
  | _ => false

/-- Language of the concatenation of two regexes: some split of `s` puts the
left part in `a` and the right part in `b`. -/
def seqR (a b : List Char → Bool) (s : List Char) : Bool :=
  (List.range (s.length + 1)).any fun i => a (s.take i) && b (s.drop i)

/-- Language of the alternation of two regexes. -/
def altR (a b : List Char → Bool) (s : List Char) : Bool :=
  a s || b s

/-- Language of `(?:a)?`: the empty string or a word of `a`. -/
def optR (a : List Char → Bool) (s : List Char) : Bool :=
  s.isEmpty || a s

/-- Language of a literal string. -/
def litR (t : String) (s : List Char) : Bool :=
  s == t.data

/-- Regex `[a-h]` (`letra` in `_compile_patterns`). -/
def letra : List Char → Bool :=
  chR fun c => decide ('a' ≤ c) && decide (c ≤ 'h')

/-- Regex `[1-8]` (`numero`). -/
def numero : List Char → Bool :=
  chR fun c => decide ('1' ≤ c) && decide (c ≤ '8')

/-- Regex `[a-h][1-8]` (`casilla`). -/
def casilla : List Char → Bool :=
  seqR letra numero

/-- Regex `[KQRBN]` (`pieza`). -/
def pieza : List Char → Bool :=
  chR fun c => c == 'K' || c == 'Q' || c == 'R' || c == 'B' || c == 'N'

/-- Regex `=[KQRBN]` (`promocion`). -/
def promocion : List Char → Bool :=
  seqR (chR fun c => c == '=') pieza

/-- Regex `[+#]` (`jaque_mate`). -/
def jaque_mate : List Char → Bool :=
  chR fun c => c == '+' || c == '#'

/-- Regex `x` (`captura`). -/
def captura : List Char → Bool :=
  chR fun c => c == 'x'

/-- Regex `(?:[a-h]|[1-8]|[a-h][1-8])` (`desambiguacion`). -/
def desambiguacion : List Char → Bool :=
  altR letra (altR numero casilla)

/-- Regex `O-O-O|O-O` (`enroque`). -/
def enroque : List Char → Bool :=
  altR (litR "O-O-O") (litR "O-O")

/-- Regex `pieza desambiguacion? captura? casilla promocion? jaque_mate?`
(`movimiento_pieza`). -/
def movimiento_pieza : List Char → Bool :=
  seqR pieza (seqR (optR desambiguacion)
    (seqR (optR captura) (seqR casilla (seqR (optR promocion) (optR jaque_mate)))))

/-- Regex `casilla promocion? jaque_mate?` (`peon_avance`). -/
def peon_avance : List Char → Bool :=
  seqR casilla (seqR (optR promocion) (optR jaque_mate))

/-- Regex `letra x casilla promocion? jaque_mate?` (`peon_captura`). -/
def peon_captura : List Char → Bool :=
  seqR letra (seqR captura (seqR casilla (seqR (optR promocion) (optR jaque_mate))))

/-- Regex `(?:peon_captura|peon_avance)` (`movimiento_peon`). -/
def movimiento_peon : List Char → Bool :=
  altR peon_captura peon_avance

/-- Core of the compiled pattern `^(?:enroque|movimiento_pieza|movimiento_peon)$`:
whether the whole character list belongs to the SAN grammar. -/
def jugada : List Char → Bool :=
  altR enroque (altR movimiento_pieza movimiento_peon)

/-- `self.move_pattern.match(move)` as a Boolean: with the `^...$` anchors,
Python's `$` matches at the end of the string or just before a newline that
ends the string, so the pattern matches `s` iff `jugada` accepts all of `s`
or `s` ends in a newline and `jugada` accepts `s` without that newline. -/
def move_pattern_match (s : String) : Bool :=
  jugada s.data ||
    (match s.data.getLast? with
     | some c => c == '\n' && jugada s.data.dropLast
     | none => false)

/-- `SANParser.validate_move`: `bool(self.move_pattern.match(move))`. -/
def validate_move (s : String) : Bool :=
  move_pattern_match s

/-- C5: each of the eleven acceptance examples is recognized by
`validate_move`. -/
theorem claim5_accept_examples :
    validate_move "e4" = true ∧ validate_move "Nf3" = true ∧
    validate_move "Bxc6" = true ∧ validate_move "O-O" = true ∧
    validate_move "O-O-O" = true ∧ validate_move "exd5" = true ∧
    validate_move "e8=Q" = true ∧ validate_move "Qh4+" = true ∧
    validate_move "Rxf7#" = true ∧ validate_move "Nbd7" = true ∧
    validate_move "R1a3" = true := by
  decide

/-- C1, counterexample: the rejection example `"Ke4e5"` is in fact accepted by
the grammar, parsed as piece `K`, square disambiguation `e4`, destination
square `e5`. -/
theorem claim1_counterexample : validate_move "Ke4e5" = true := by
  decide

/-- C1, amended: the other seven rejection examples are indeed rejected, while
`"Ke4e5"` is accepted (piece move with square disambiguation). -/
theorem claim1_reject_examples_amended :
    validate_move "" = false ∧ validate_move "e9" = false ∧
    validate_move "e" = false ∧ validate_move "o-o" = false ∧
    validate_move "Kx" = false ∧ validate_move "Ke4e5" = true ∧
    validate_move "e4 " = false ∧ validate_move "e4x" = false := by
  decide

/-- C2, counterexample: `"e4\n"` is not a whole-string match of the SAN
grammar, yet `validate_move` accepts it, because Python's `$` anchor also
matches just before a trailing newline. -/
theorem claim2_counterexample :
    jugada "e4\n".data = false ∧ validate_move "e4\n" = true := by
  decide

/-- C2, amended: the match is anchored at both ends except for one tolerated
trailing newline: `validate_move s` is true iff `s` itself is a whole-string
match of the grammar, or `s` is a whole-string match followed by a single
final newline character. -/
theorem claim2_anchored_amended (s : String) :
    validate_move s = true ↔
      (jugada s.data = true ∨
        ∃ t : List Char, s.data = t ++ ['\n'] ∧ jugada t = true) := by
  unfold validate_move move_pattern_match
  rcases h : s.data.getLast? with _ | c
  · have hnil : s.data = [] := List.getLast?_eq_none_iff.mp h
    simp [hnil]
  · have hne : s.data ≠ [] := by
      intro hcon
      rw [hcon] at h
      simp at h
    have hdecomp : s.data.dropLast ++ [s.data.getLast hne] = s.data :=
      List.dropLast_concat_getLast hne
    have hlast : s.data.getLast hne = c := by
      have := List.getLast?_eq_getLast s.data hne
      rw [h] at this
      exact (Option.some_injective _ this.symm)
    constructor
    · intro hv
      rcases Bool.or_eq_true _ _ |>.mp hv with h1 | h2
      · exact Or.inl h1
      · rcases Bool.and_eq_true _ _ |>.mp h2 with ⟨hc, hj⟩
        refine Or.inr ⟨s.data.dropLast, ?_, hj⟩
        rw [← hdecomp, hlast]
        simp
        exact beq_iff_eq.mp hc
    · intro hv
      rcases hv with h1 | ⟨t, ht, hj⟩
      · simp [h1]
      · have hdl : s.data.dropLast = t := by
          rw [ht, List.dropLast_concat]
        have hc : c = '\n' := by
          have := List.getLast?_concat (a := '\n') t
          rw [← ht, h] at this
          exact Option.some_injective _ this
        simp [hdl, hj, hc]

/-!
Turn ledger.  `SANParser.turns` is a list of pairs `(white_move, black_move)`
where `black_move` is a string or `None`; a Turn is embedded as
`String × Option String`.
-/

/-- A ledger entry: white move text, optional black move text. -/
abbrev Turn := String × Option String

/-- `SANParser.add_turn(white, black=None)`: `self.turns.append((white, black))`. -/
def add_turn (turns : List Turn) (white : String)
    (black : Option String := none) : List Turn :=
  turns ++ [(white, black)]

/-- The main loop's amendment of the last turn,
`self.turns[-1] = (self.turns[-1][0], black)` — the `set_last_black`
operation of the design.  On an empty ledger Python's `turns[-1]` raises
`IndexError`, embedded as `none`; otherwise the last pair's second component
is replaced unconditionally. -/
def set_last_black (turns : List Turn) (black : Option String) :
    Option (List Turn) :=
  match turns.getLast? with
  | none => none
  | some t => some (turns.dropLast ++ [(t.1, black)])

/-- C7: appending white `"e4"` and then setting the last black to `"e5"`
yields exactly the one-turn ledger; a further append of `"Nf3"` with black
unset yields two turns with the second black absent. -/
theorem claim7_ledger_scenario :
    set_last_black (add_turn [] "e4") (some "e5") = some [("e4", some "e5")] ∧
    add_turn [("e4", some "e5")] "Nf3" = [("e4", some "e5"), ("Nf3", none)] := by
  constructor
  · rfl
  · rfl

/-- C3, counterexample: setting the black slot of a turn whose black slot is
already finalized (`"e5"`) is not rejected — the operation succeeds and the
stored move is silently replaced by `"Qh4"`. -/
theorem claim3_counterexample :
    set_last_black [("e4", some "e5")] (some "Qh4") =
      some [("e4", some "Qh4")] := by
  rfl

/-- C3, amended: on any non-empty ledger, setting the black slot always
succeeds and silently overwrites whatever black move the last turn stored;
no rejection or flagging occurs. -/
theorem claim3_overwrite_amended (ts : List Turn) (w : String)
    (b0 b : Option String) :
    set_last_black (ts ++ [(w, b0)]) b = some (ts ++ [(w, b)]) := by
  unfold set_last_black
  rw [List.getLast?_concat, List.dropLast_concat]

/-!
Variation tree renderer.  `SANParser.generate_tree` prints lines; the
embedding returns the list of printed lines.  The inner recursion
`_build_tree(depth, prefix, is_last)` consumes at least one turn per call, so
it is embedded structurally with a fuel argument that starts at
`turns.length - depth`, a strict upper bound on the remaining recursion depth.
Python's `str.replace` (every non-overlapping occurrence, left to right) is
embedded the same way, with the string length as fuel.
-/

/-- Python `str.replace` on character lists, fuelled: each step consumes at
least one character of the scanned string, so `s.length` steps suffice. -/
def py_replace_aux (pat rep : List Char) : Nat → List Char → List Char
  | 0, s => s
  | _ + 1, [] => []
  | fuel + 1, c :: rest =>
    if pat ≠ [] ∧ pat.isPrefixOf (c :: rest) then
      rep ++ py_replace_aux pat rep fuel ((c :: rest).drop pat.length)
    else
      c :: py_replace_aux pat rep fuel rest

/-- Python `s.replace(pat, rep)`. -/
def py_replace (s pat rep : String) : String :=
  String.mk (py_replace_aux pat.data rep.data s.data.length s.data)

/-- Python truthiness of the `black` slot: `None` and the empty string are
falsy, any other string is truthy (`if black:`). -/
def py_truthy : Option String → Bool
  | none => false
  | some s => !s.isEmpty

/-- The black-branch part of one `_build_tree` step: if the black slot is
truthy, print it one indent deeper with `└── ` and recurse at `depth + 1`
under the deeper indent plus a blank unit; otherwise recurse at `depth + 1`
under the current prefix plus a `│   ` unit.  `recur` is the recursive call
of the enclosing walk. -/
def tree_body (recur : Nat → String → Bool → List String) (depth : Nat)
    (pre : String) (il : Bool) (black : Option String) : List String :=
  match black with
  | some b =>
    if b.isEmpty then
      recur (depth + 1) (pre ++ "│   ") false
    else
      (pre ++ (if il then "    " else "│   ") ++ "└── " ++ b) ::
        recur (depth + 1) (pre ++ (if il then "    " else "│   ") ++ "    ") false
  | none => recur (depth + 1) (pre ++ "│   ") false

/-- The inner recursion `_build_tree(depth, prefix, is_last)` of
`SANParser.generate_tree`, returning the lines it prints.  `turns[depth]?`
is `none` exactly when `depth >= len(self.turns)` (the early return).  The
first argument is fuel; callers pass `turns.length - depth`, a strict upper
bound on the number of remaining steps. -/
def build_tree_aux (turns : List Turn) : Nat → Nat → String → Bool → List String
  | 0, _, _, _ => []
  | fuel + 1, depth, pre, il =>
    match turns[depth]? with
    | none => []
    | some (white, black) =>
      (pre ++ (if il then "└── " else "├── ") ++ white) ::
        (tree_body (build_tree_aux turns fuel) depth pre il black ++
         (if depth = 0 ∧ 1 < turns.length then
            build_tree_aux turns fuel 1
              (py_replace (py_replace pre "├──" "│   ") "└──" "    ") true
          else []))

/-- `_build_tree(depth, prefix, is_last)` with its fuel instantiated. -/
def build_tree (turns : List Turn) (depth : Nat) (pre : String) (il : Bool) :
    List String :=
  build_tree_aux turns (turns.length - depth) depth pre il

/-- `SANParser.generate_tree`: prints `"Partida"`, then, if the ledger is
non-empty, runs `_build_tree(0, "", len(self.turns) == 1)`. -/
def generate_tree (turns : List Turn) : List String :=
  "Partida" :: (if turns.isEmpty then [] else build_tree turns 0 "" (turns.length == 1))

/-- The same walk as `build_tree_aux` but with the one hard-coded
depth-0 "variation" branch removed: the plain depth-first rendering of the
ledger from a given turn index.  This is the comparison point for the
variation-branch claim. -/
def plain_tree_aux (turns : List Turn) : Nat → Nat → String → Bool → List String
  | 0, _, _, _ => []
  | fuel + 1, depth, pre, il =>
    match turns[depth]? with
    | none => []
    | some (white, black) =>
      (pre ++ (if il then "└── " else "├── ") ++ white) ::
        tree_body (plain_tree_aux turns fuel) depth pre il black

/-- Plain walk with its fuel instantiated. -/
def plain_tree (turns : List Turn) (depth : Nat) (pre : String) (il : Bool) :
    List String :=
  plain_tree_aux turns (turns.length - depth) depth pre il

/-- Step equation for `build_tree_aux` when the turn index is out of range. -/
theorem build_tree_aux_oob (turns : List Turn) (f depth : Nat) (pre : String)
    (il : Bool) (h : turns[depth]? = none) :
    build_tree_aux turns (f + 1) depth pre il = [] := by
  simp only [build_tree_aux]
  rw [h]

/-- Step equation for `build_tree_aux` on an in-range turn. -/
theorem build_tree_aux_step (turns : List Turn) (f depth : Nat) (pre : String)
    (il : Bool) (w : String) (b : Option String)
    (h : turns[depth]? = some (w, b)) :
    build_tree_aux turns (f + 1) depth pre il =
      (pre ++ (if il then "└── " else "├── ") ++ w) ::
        (tree_body (build_tree_aux turns f) depth pre il b ++
         (if depth = 0 ∧ 1 < turns.length then
            build_tree_aux turns f 1
              (py_replace (py_replace pre "├──" "│   ") "└──" "    ") true
          else [])) := by
  simp only [build_tree_aux]
  rw [h]

/-- Step equation for `plain_tree_aux` when the turn index is out of range. -/
theorem plain_tree_aux_oob (turns : List Turn) (f depth : Nat) (pre : String)
    (il : Bool) (h : turns[depth]? = none) :
    plain_tree_aux turns (f + 1) depth pre il = [] := by
  simp only [plain_tree_aux]
  rw [h]

/-- Step equation for `plain_tree_aux` on an in-range turn. -/
theorem plain_tree_aux_step (turns : List Turn) (f depth : Nat) (pre : String)
    (il : Bool) (w : String) (b : Option String)
    (h : turns[depth]? = some (w, b)) :
    plain_tree_aux turns (f + 1) depth pre il =
      (pre ++ (if il then "└── " else "├── ") ++ w) ::
        tree_body (plain_tree_aux turns f) depth pre il b := by
  simp only [plain_tree_aux]
  rw [h]

/-- Congruence for `tree_body`: walks that agree at `depth + 1` produce the
same black-branch lines. -/
theorem tree_body_congr (r1 r2 : Nat → String → Bool → List String)
    (depth : Nat) (pre : String) (il : Bool) (black : Option String)
    (hr : ∀ p i, r1 (depth + 1) p i = r2 (depth + 1) p i) :
    tree_body r1 depth pre il black = tree_body r2 depth pre il black := by
  cases black with
  | none => exact hr _ _
  | some b =>
    by_cases hb : b.isEmpty <;>
      simp only [tree_body, hb, ite_true, ite_false, Bool.false_eq_true] <;>
      rw [hr]

/-- Away from depth 0 the renderer and the plain walk coincide: the special
variation branch can only fire at depth 0. -/
theorem build_tree_aux_eq_plain (turns : List Turn) :
    ∀ (fuel depth : Nat) (pre : String) (il : Bool), depth ≠ 0 →
      build_tree_aux turns fuel depth pre il =
        plain_tree_aux turns fuel depth pre il := by
  intro fuel
  induction fuel with
  | zero => intro depth pre il _; rfl
  | succ f ih =>
    intro depth pre il hd
    cases hidx : turns[depth]? with
    | none =>
      rw [build_tree_aux_oob turns f depth pre il hidx,
        plain_tree_aux_oob turns f depth pre il hidx]
    | some t =>
      obtain ⟨w, b⟩ := t
      have hguard : ¬ (depth = 0 ∧ 1 < turns.length) := fun hcon => hd hcon.1
      rw [build_tree_aux_step turns f depth pre il w b hidx,
        plain_tree_aux_step turns f depth pre il w b hidx,
        if_neg hguard, List.append_nil,
        tree_body_congr (build_tree_aux turns f) (plain_tree_aux turns f)
          depth pre il b (fun p i => ih (depth + 1) p i (Nat.succ_ne_zero _))]

/-- Replacing in an empty prefix is a no-op, so the variation branch at
depth 0 of `generate_tree` runs under the empty (fully dedented) prefix. -/
theorem py_replace_empty (pat rep : String) : py_replace "" pat rep = "" := by
  rfl

/-- One step of the renderer at depth 0 on a multi-turn ledger: the output is
the plain subtree of turn 0 followed by one re-rendering of the continuation
from turn index 1, marked as last, under the connector-replaced prefix. -/
theorem build_tree_aux_zero_step (turns : List Turn) (f : Nat) (pre : String)
    (il : Bool) (h : 1 < turns.length) :
    build_tree_aux turns (f + 1) 0 pre il =
      plain_tree_aux turns (f + 1) 0 pre il ++
        build_tree_aux turns f 1
          (py_replace (py_replace pre "├──" "│   ") "└──" "    ") true := by
  cases turns with
  | nil => simp at h
  | cons t rest =>
    obtain ⟨w, b⟩ := t
    have hidx : ((w, b) :: rest)[0]? = some (w, b) := List.getElem?_cons_zero
    have hguard : ((0 : Nat) = 0 ∧ 1 < ((w, b) :: rest).length) := ⟨rfl, h⟩
    rw [build_tree_aux_step ((w, b) :: rest) f 0 pre il w b hidx,
      plain_tree_aux_step ((w, b) :: rest) f 0 pre il w b hidx,
      if_pos hguard, List.cons_append,
      tree_body_congr (build_tree_aux ((w, b) :: rest) f)
        (plain_tree_aux ((w, b) :: rest) f) 0 pre il b
        (fun p i => build_tree_aux_eq_plain ((w, b) :: rest) f 1 p i one_ne_zero)]

/-- C4: on a ledger with more than one turn, the rendered output is the root
label, the plain depth-first subtree of turn 0 (which itself contains the
whole continuation), followed exactly once by a second rendering of the
continuation from turn index 1, under the empty dedented prefix and marked as
the last branch; on a single-turn ledger no variation branch is emitted. -/
theorem claim4_variation_branch (turns : List Turn) :
    (1 < turns.length →
      generate_tree turns =
        "Partida" ::
          (plain_tree turns 0 "" false ++ plain_tree turns 1 "" true)) ∧
    (turns.length = 1 →
      generate_tree turns = "Partida" :: plain_tree turns 0 "" true) := by
  constructor
  · intro h
    have hne : turns.isEmpty = false := by
      cases turns with
      | nil => simp at h
      | cons t rest => rfl
    have hbeq : (turns.length == 1) = false :=
      beq_eq_false_iff_ne.mpr (by omega)
    have hf : turns.length = (turns.length - 1) + 1 := by omega
    unfold generate_tree build_tree plain_tree
    rw [hne, hbeq]
    simp only [Bool.false_eq_true, ite_false, Nat.sub_zero]
    rw [show build_tree_aux turns turns.length 0 "" false =
          build_tree_aux turns ((turns.length - 1) + 1) 0 "" false by rw [← hf],
      build_tree_aux_zero_step turns (turns.length - 1) "" false h,
      py_replace_empty, py_replace_empty,
      build_tree_aux_eq_plain turns (turns.length - 1) 1 "" true one_ne_zero, ← hf]
  · intro h
    obtain ⟨t, rfl⟩ := List.length_eq_one.mp h
    obtain ⟨w, b⟩ := t
    have hguard : ¬ ((0 : Nat) = 0 ∧ 1 < ([(w, b)] : List Turn).length) := by
      simp
    have hidx : ([(w, b)] : List Turn)[0]? = some (w, b) := rfl
    unfold generate_tree build_tree plain_tree
    rw [show (([(w, b)] : List Turn).length - 0) = 0 + 1 from rfl,
      build_tree_aux_step [(w, b)] 0 0 "" (([(w, b)] : List Turn).length == 1)
        w b hidx,
      plain_tree_aux_step [(w, b)] 0 0 "" true w b hidx,
      if_neg hguard, List.append_nil]
    rfl

/-- C4 witness: the two-turn scenario from the specification, and a one-turn
ledger, instantiating both branches of the variation-branch theorem. -/
theorem claim4_variation_branch_witness :
    (1 < ([("e4", some "e5"), ("Nf3", none)] : List Turn).length ∧
      generate_tree [("e4", some "e5"), ("Nf3", none)] =
        "Partida" ::
          (plain_tree [("e4", some "e5"), ("Nf3", none)] 0 "" false ++
            plain_tree [("e4", some "e5"), ("Nf3", none)] 1 "" true)) ∧
    (([("e4", some "e5")] : List Turn).length = 1 ∧
      generate_tree [("e4", some "e5")] =
        "Partida" :: plain_tree [("e4", some "e5")] 0 "" true) :=
  ⟨⟨by decide,
    (claim4_variation_branch [("e4", some "e5"), ("Nf3", none)]).1 (by decide)⟩,
   ⟨by decide,
    (claim4_variation_branch [("e4", some "e5")]).2 (by decide)⟩⟩

/-- C6: the single-turn ledger renders as the root label, `└── e4`, and the
deeper `    └── e5`, with no variation branch; the empty ledger renders as
the root label alone. -/
theorem claim6_render_scenarios :
    generate_tree [("e4", some "e5")] = ["Partida", "└── e4", "    └── e5"] ∧
    generate_tree [] = ["Partida"] := by
  constructor
  · rfl
  · rfl

/-!
External chess rules engine (the `chess` library) and the parser session
state.  The engine is out of scope for the repository and is modelled as an
abstract capability record: a fresh initial board, fallible SAN parsing
(`parse_san` raising `InvalidMove` is embedded as `none`), total move
application, move origin/destination squares, square-to-piece lookup
(`piece_at` returning `None` is embedded as `none`), and square naming.
Python methods that assign no attribute of `self` are embedded as
state-passing functions returning the state unchanged.
-/

/-- Abstract interface of the `chess` library as used by `SANParser`. -/
structure ChessEngine (B M S : Type) where
  init : B
  parse_san : B → String → Option M
  push : B → M → B
  from_square : M → S
  to_square : M → S
  piece_at : B → S → Option String
  square_name : S → String

/-- The mutable attributes set by `SANParser.__init__`: the compiled pattern
(as its match function), the turn ledger, and the live session board. -/
structure ParserState (B : Type) where
  move_pattern : String → Bool
  turns : List Turn
  board : B

/-- `SANParser.__init__`: compile the pattern, start with an empty ledger and
a fresh board from the rules engine. -/
def SANParser_init {B M S : Type} (E : ChessEngine B M S) : ParserState B :=
  { move_pattern := move_pattern_match, turns := [], board := E.init }

/-- `SANParser.validate_move` as a method on the session state: it evaluates
the stored compiled pattern on the argument and assigns no attribute. -/
def validate_move_m {B : Type} (st : ParserState B) (move : String) :
    Bool × ParserState B :=
  (st.move_pattern move, st)

/-- `SANParser.play_move`: parse the SAN string against the live board and
push the parsed move, returning `True`; the `except Exception` branch turns
any parse failure into `False` with no state change. -/
def play_move {B M S : Type} (E : ChessEngine B M S) (st : ParserState B)
    (san_move : String) : Bool × ParserState B :=
  match E.parse_san st.board san_move with
  | some mv => (true, { st with board := E.push st.board mv })
  | none => (false, st)

/-- One ply of `SANParser.display_result`'s replay loop: parse the stored
move against the replay board, look up the moving piece's symbol, record
`piece ++ from ++ " " ++ to`, and push the move.  A parse failure or a
missing piece is a propagated exception, embedded as `none`. -/
def flat_step {B M S : Type} (E : ChessEngine B M S) (acc : B × List String)
    (m : String) : Option (B × List String) :=
  match E.parse_san acc.1 m with
  | none => none
  | some mv =>
    match E.piece_at acc.1 (E.from_square mv) with
    | none => none
    | some sym =>
      some (E.push acc.1 mv,
        acc.2 ++ [sym.toUpper ++ E.square_name (E.from_square mv) ++ " " ++
          E.square_name (E.to_square mv)])

/-- The `for w, b in self.turns` loop of `display_result`: each truthy slot
is replayed in order (`b.getD ""` is the string carried by a truthy black
slot). -/
def flat_turns {B M S : Type} (E : ChessEngine B M S) :
    List Turn → B × List String → Option (B × List String)
  | [], acc => some acc
  | (w, b) :: rest, acc =>
    match (if !w.isEmpty then flat_step E acc w else some acc) with
    | none => none
    | some acc1 =>
      match (if py_truthy b then flat_step E acc1 (b.getD "") else some acc1) with
      | none => none
      | some acc2 => flat_turns E rest acc2

/-- `[f"{i+1}. {m}" for i, m in enumerate(flat)]` with the 1-based counter
made explicit. -/
def number_parts : Nat → List String → List String
  | _, [] => []
  | i, m :: rest => (toString i ++ ". " ++ m) :: number_parts (i + 1) rest

/-- `SANParser.display_result`: replay the ledger on a fresh board
(`board_copy = chess.Board()`, never `self.board`), and print the flattened,
numbered ply list joined by two spaces.  The printed line is returned; the
session state passes through untouched (the method assigns no attribute of
`self`). -/
def display_result {B M S : Type} (E : ChessEngine B M S)
    (st : ParserState B) : Option String × ParserState B :=
  match flat_turns E st.turns (E.init, []) with
  | none => (none, st)
  | some acc => (some (String.intercalate "  " (number_parts 1 acc.2)), st)

/-- C8: the flattener's output is computed by replaying the ledger from the
engine's fresh initial board, so it does not depend on the live session
board at all, and the call leaves the whole session state — ledger and
session board included — exactly as it was. -/
theorem claim8_flattener_frame (B M S : Type) (E : ChessEngine B M S)
    (pat1 pat2 : String → Bool) (ts : List Turn) (b1 b2 : B) :
    (display_result E ⟨pat1, ts, b1⟩).1 = (display_result E ⟨pat2, ts, b2⟩).1 ∧
    (display_result E ⟨pat1, ts, b1⟩).2 = ⟨pat1, ts, b1⟩ := by
  cases hft : flat_turns E ts (E.init, []) with
  | none => exact ⟨by simp [display_result, hft], by simp [display_result, hft]⟩
  | some acc => exact ⟨by simp [display_result, hft], by simp [display_result, hft]⟩

/-- C9: `validate_move` is deterministic and side-effect-free: it returns the
session state unchanged, a repeated call yields the same Boolean, and on a
freshly initialized parser its Boolean is exactly the grammar recognizer's
verdict. -/
theorem claim9_validate_pure (B : Type) (st : ParserState B) (s : String) :
    (validate_move_m st s).2 = st ∧
    (validate_move_m (validate_move_m st s).2 s).1 = (validate_move_m st s).1 ∧
    ∀ (M S : Type) (E : ChessEngine B M S),
      (validate_move_m (SANParser_init E) s).1 = validate_move s :=
  ⟨rfl, rfl, fun _ _ _ => rfl⟩

/-- C10: `play_move` is total (the `try/except` catches every failure): it
never touches the ledger or the compiled pattern; when the engine rejects
the token it returns `False` with the state exactly unchanged; when the
engine parses the token it returns `True` and advances the live board by the
parsed move. -/
theorem claim10_play_move_total (B M S : Type) (E : ChessEngine B M S)
    (st : ParserState B) (s : String) :
    ((play_move E st s).2.turns = st.turns ∧
      (play_move E st s).2.move_pattern = st.move_pattern) ∧
    (E.parse_san st.board s = none → play_move E st s = (false, st)) ∧
    (∀ mv : M, E.parse_san st.board s = some mv →
      play_move E st s = (true, { st with board := E.push st.board mv })) := by
  refine ⟨?_, fun h => by simp [play_move, h], fun mv h => by simp [play_move, h]⟩
  cases hp : E.parse_san st.board s <;> simp [play_move, hp]

/-- A tiny concrete rules engine used to instantiate the `play_move`
theorem: boards are move counters, only `"e4"` parses. -/
def nat_engine : ChessEngine Nat Nat Nat where
  init := 0
  parse_san := fun b s => if s = "e4" then some b else none
  push := fun b _ => b + 1
  from_square := fun m => m
  to_square := fun m => m + 1
  piece_at := fun _ _ => some "p"
  square_name := fun n => toString n

/-- C10 witness: on the concrete engine, a rejected token returns `False`
with the state unchanged, and an accepted token returns `True` with the
board advanced. -/
theorem claim10_play_move_total_witness :
    nat_engine.parse_san (SANParser_init nat_engine).board "zz" = none ∧
    play_move nat_engine (SANParser_init nat_engine) "zz" =
      (false, SANParser_init nat_engine) ∧
    nat_engine.parse_san (SANParser_init nat_engine).board "e4" = some 0 ∧
    play_move nat_engine (SANParser_init nat_engine) "e4" =
      (true, { SANParser_init nat_engine with board := 1 }) :=
  ⟨rfl,
   (claim10_play_move_total Nat Nat Nat nat_engine
     (SANParser_init nat_engine) "zz").2.1 rfl,
   rfl,
   (claim10_play_move_total Nat Nat Nat nat_engine
     (SANParser_init nat_engine) "e4").2.2 0 rfl⟩
